import Mathlib

/-!
Verification of the tardis-python slice replay client
(`src/tardis_client/tardis_client.py`).

Conventions of the shallow embedding:

* Python `bytes` values are `List Nat` of byte values; decoded text is
  `List Nat` of Unicode code points.  `mkBytes` turns an ASCII Lean string
  literal into its code points (which coincide with its UTF-8 bytes).
* `datetime.datetime` values are the seven-field structure `DateTime`; the
  range validation performed by the `datetime` constructor is `mkDateTime`.
* A raising Python function is embedded as a function into `Except PyError`
  or `Option`; the exception kinds that the client can raise are the
  constructors of `PyError`.
* The gzip layer is external to the client; a slice file is given by its
  decompressed byte content, and Python binary-file line iteration is
  `splitLines`.
-/

/-- Unicode code points of an ASCII Lean string literal.  All concrete byte
strings in this development are ASCII, where code points and UTF-8 bytes
coincide. -/
def mkBytes (s : String) : List Nat := s.data.map Char.toNat

/-- Embedding of `datetime.datetime`: a naive timestamp as its seven fields. -/
structure DateTime where
  year : Nat
  month : Nat
  day : Nat
  hour : Nat
  minute : Nat
  second : Nat
  microsecond : Nat
deriving DecidableEq

/-- Gregorian leap-year rule, as used by the `datetime` module. -/
def isLeap (y : Nat) : Bool := y % 4 == 0 && (y % 100 != 0 || y % 400 == 0)

/-- Days in a month, as used by the `datetime` constructor validation. -/
def daysInMonth (y m : Nat) : Nat :=
  if m = 2 then (if isLeap y then 29 else 28)
  else if m = 4 ∨ m = 6 ∨ m = 9 ∨ m = 11 then 30
  else 31

/-- Embedding of the range validation done by the `datetime.datetime(...)`
constructor: `MINYEAR ≤ year ≤ MAXYEAR`, month 1..12, day 1..`daysInMonth`,
and in-range time fields.  Both `datetime.fromisoformat` and
`datetime.strptime` build their result through this constructor. -/
def mkDateTime (y m d h mi s us : Nat) : Option DateTime :=
  if 1 ≤ y ∧ y ≤ 9999 ∧ 1 ≤ m ∧ m ≤ 12 ∧ 1 ≤ d ∧ d ≤ daysInMonth y m
      ∧ h ≤ 23 ∧ mi ≤ 59 ∧ s ≤ 59 ∧ us ≤ 999999 then
    some ⟨y, m, d, h, mi, s, us⟩
  else none

/-- Field ranges satisfied by every datetime built by `mkDateTime`. -/
def DateTime.Valid (d : DateTime) : Prop :=
  1 ≤ d.month ∧ d.month ≤ 12 ∧ 1 ≤ d.day ∧ d.day ≤ 31 ∧
    d.hour ≤ 23 ∧ d.minute ≤ 59 ∧ d.second ≤ 59 ∧ d.microsecond ≤ 999999

instance (d : DateTime) : Decidable d.Valid := by
  unfold DateTime.Valid
  infer_instance

/-- Mixed-radix key.  On datetimes with in-range fields it orders exactly as
Python compares datetimes (field-lexicographically), because every radix
strictly bounds its field. -/
def DateTime.key (d : DateTime) : Nat :=
  (((((d.year * 13 + d.month) * 32 + d.day) * 24 + d.hour) * 60 + d.minute) * 60
      + d.second) * 1000000 + d.microsecond

/-- Embedding of `current_slice_date + timedelta(seconds=60)`: adding sixty
seconds to a datetime whose second field is at most 59 leaves the second and
microsecond fields unchanged and increments the minute, with calendar
carries. -/
def addOneMinute (d : DateTime) : DateTime :=
  if d.minute + 1 ≤ 59 then { d with minute := d.minute + 1 }
  else if d.hour + 1 ≤ 23 then { d with minute := 0, hour := d.hour + 1 }
  else if d.day + 1 ≤ daysInMonth d.year d.month then
    { d with minute := 0, hour := 0, day := d.day + 1 }
  else if d.month + 1 ≤ 12 then
    { d with minute := 0, hour := 0, day := 1, month := d.month + 1 }
  else { d with minute := 0, hour := 0, day := 1, month := 1, year := d.year + 1 }

theorem daysInMonth_le_31 (y m : Nat) : daysInMonth y m ≤ 31 := by
  unfold daysInMonth
  split
  · split <;> omega
  · split <;> omega

theorem mkDateTime_valid {y m d h mi s us : Nat} {dt : DateTime}
    (hmk : mkDateTime y m d h mi s us = some dt) : dt.Valid := by
  unfold mkDateTime at hmk
  split at hmk
  · rename_i hr
    cases hmk
    have h31 := daysInMonth_le_31 y m
    unfold DateTime.Valid
    dsimp only
    omega
  · exact absurd hmk (by simp)

theorem addOneMinute_valid {d : DateTime} (hv : d.Valid) :
    (addOneMinute d).Valid := by
  obtain ⟨h1, h2, h3, h4, h5, h6, h7, h8⟩ := hv
  have h31 := daysInMonth_le_31 d.year d.month
  unfold addOneMinute
  split
  · unfold DateTime.Valid; dsimp only; omega
  split
  · unfold DateTime.Valid; dsimp only; omega
  split
  · unfold DateTime.Valid; dsimp only; omega
  split
  · unfold DateTime.Valid; dsimp only; omega
  · unfold DateTime.Valid; dsimp only; omega

theorem key_lt_addOneMinute {d : DateTime} (hv : d.Valid) :
    d.key < (addOneMinute d).key := by
  obtain ⟨h1, h2, h3, h4, h5, h6, h7, h8⟩ := hv
  have h31 := daysInMonth_le_31 d.year d.month
  unfold addOneMinute
  split
  · simp only [DateTime.key]; omega
  split
  · simp only [DateTime.key]; omega
  split
  · simp only [DateTime.key]; omega
  split
  · simp only [DateTime.key]; omega
  · simp only [DateTime.key]; omega

/-- Decimal digit test on a code point. -/
def isDigitCode (c : Nat) : Bool := 48 ≤ c && c ≤ 57

/-- Greedy decimal-digit prefix of a code-point list, with the rest. -/
def takeDigits : List Nat → List Nat × List Nat
  | [] => ([], [])
  | c :: rest =>
    if isDigitCode c then
      let (ds, r) := takeDigits rest
      (c :: ds, r)
    else ([], c :: rest)

/-- Numeric value of a decimal digit string. -/
def digitsToNat (ds : List Nat) : Nat := ds.foldl (fun a c => a * 10 + (c - 48)) 0

/-- Modelled from the Python standard library: the time part of the
`datetime.fromisoformat` grammar (Python 3.10), `HH[:MM[:SS[.fff[fff]]]]`
with a fraction of exactly three or six digits. -/
def isoTimeFields (cs : List Nat) : Option (Nat × Nat × Nat × Nat) :=
  match cs with
  | [h1, h2] =>
    if [h1, h2].all isDigitCode then
      some (digitsToNat [h1, h2], 0, 0, 0)
    else none
  | [h1, h2, 58, m1, m2] =>
    if [h1, h2, m1, m2].all isDigitCode then
      some (digitsToNat [h1, h2], digitsToNat [m1, m2], 0, 0)
    else none
  | [h1, h2, 58, m1, m2, 58, s1, s2] =>
    if [h1, h2, m1, m2, s1, s2].all isDigitCode then
      some (digitsToNat [h1, h2], digitsToNat [m1, m2], digitsToNat [s1, s2], 0)
    else none
  | h1 :: h2 :: 58 :: m1 :: m2 :: 58 :: s1 :: s2 :: 46 :: fs =>
    if ([h1, h2, m1, m2, s1, s2].all isDigitCode && fs.all isDigitCode)
        && (fs.length = 3 || fs.length = 6) then
      some (digitsToNat [h1, h2], digitsToNat [m1, m2], digitsToNat [s1, s2],
        digitsToNat fs * (if fs.length = 3 then 1000 else 1))
    else none
  | _ => none

/-- Modelled from the Python standard library: field extraction of
`datetime.fromisoformat` (Python 3.10 grammar) for naive timestamps,
`YYYY-MM-DD[<sep>HH[:MM[:SS[.fff[fff]]]]]` with an arbitrary one-character
separator.  UTC-offset suffixes and the whitespace/sign leniency of `int()`
are out of scope; the claims only exercise naive ISO strings.  Range
validation happens in `mkDateTime`, as in the `datetime` constructor. -/
def isoFields (cs : List Nat) : Option (Nat × Nat × Nat × Nat × Nat × Nat × Nat) :=
  match cs with
  | y1 :: y2 :: y3 :: y4 :: 45 :: m1 :: m2 :: 45 :: d1 :: d2 :: rest =>
    if [y1, y2, y3, y4, m1, m2, d1, d2].all isDigitCode then
      let y := digitsToNat [y1, y2, y3, y4]
      let mo := digitsToNat [m1, m2]
      let dy := digitsToNat [d1, d2]
      match rest with
      | [] => some (y, mo, dy, 0, 0, 0, 0)
      | _sep :: tstr =>
        match isoTimeFields tstr with
        | some (h, mi, s, us) => some (y, mo, dy, h, mi, s, us)
        | none => none
    else none
  | _ => none

/-- Embedding of `datetime.fromisoformat` on the naive subset: field
extraction followed by constructor range validation. -/
def fromisoformat (s : String) : Option DateTime :=
  (isoFields (mkBytes s)).bind fun (y, mo, dy, h, mi, sec, us) =>
    mkDateTime y mo dy h mi sec us

/-- Reads a run of one or two digits followed by the given separator code, as
the backtracking `strptime` regex does for a two-digit field before a
non-digit literal. -/
def twoDigitsSep (sep : Nat) (cs : List Nat) : Option (Nat × List Nat) :=
  let (ds, r) := takeDigits cs
  if 1 ≤ ds.length && ds.length ≤ 2 then
    match r with
    | c :: r2 => if c = sep then some (digitsToNat ds, r2) else none
    | [] => none
  else none

/-- Modelled from the Python standard library: field extraction of
`datetime.strptime(s, "%Y-%m-%dT%H:%M:%S.%f")`: exactly four year digits,
one or two digits for month, day, hour, minute and second around the literal
separators, and one to six fractional digits right-padded to microseconds;
the whole string must be consumed.  Range validation happens in
`mkDateTime`, as in the `datetime` constructor. -/
def strptimeFields (cs : List Nat) : Option (Nat × Nat × Nat × Nat × Nat × Nat × Nat) :=
  match cs with
  | y1 :: y2 :: y3 :: y4 :: 45 :: rest =>
    if [y1, y2, y3, y4].all isDigitCode then do
      let (mo, r1) ← twoDigitsSep 45 rest
      let (dy, r2) ← twoDigitsSep 84 r1
      let (h, r3) ← twoDigitsSep 58 r2
      let (mi, r4) ← twoDigitsSep 58 r3
      let (s, r5) ← twoDigitsSep 46 r4
      let (fds, r6) := takeDigits r5
      if 1 ≤ fds.length ∧ fds.length ≤ 6 ∧ r6 = [] then
        some (digitsToNat [y1, y2, y3, y4], mo, dy, h, mi, s,
          digitsToNat fds * 10 ^ (6 - fds.length))
      else none
    else none
  | _ => none

/-- Embedding of `datetime.strptime(s, "%Y-%m-%dT%H:%M:%S.%f")`. -/
def strptimeYmdHMSf (cs : List Nat) : Option DateTime :=
  (strptimeFields cs).bind fun (y, mo, dy, h, mi, s, us) =>
    mkDateTime y mo dy h mi s us

/-- Modelled from the Python standard library: strict UTF-8 decoding of a
byte list to code points, as `bytes.decode("utf-8")`: stray continuation
bytes, truncated sequences, overlong encodings, surrogates and values beyond
U+10FFFF are rejected. -/
def utf8Decode : List Nat → Option (List Nat)
  | [] => some []
  | b :: rest =>
    if b ≤ 0x7F then (utf8Decode rest).map (b :: ·)
    else if b ≤ 0xBF then none
    else if b ≤ 0xDF then
      match rest with
      | b2 :: r =>
        if 0x80 ≤ b2 && b2 ≤ 0xBF then
          let cp := (b - 0xC0) * 64 + (b2 - 0x80)
          if cp < 0x80 then none else (utf8Decode r).map (cp :: ·)
        else none
      | [] => none
    else if b ≤ 0xEF then
      match rest with
      | b2 :: b3 :: r =>
        if (0x80 ≤ b2 && b2 ≤ 0xBF) && (0x80 ≤ b3 && b3 ≤ 0xBF) then
          let cp := (b - 0xE0) * 4096 + (b2 - 0x80) * 64 + (b3 - 0x80)
          if cp < 0x800 || (0xD800 ≤ cp && cp ≤ 0xDFFF) then none
          else (utf8Decode r).map (cp :: ·)
        else none
      | _ => none
    else if b ≤ 0xF4 then
      match rest with
      | b2 :: b3 :: b4 :: r =>
        if ((0x80 ≤ b2 && b2 ≤ 0xBF) && (0x80 ≤ b3 && b3 ≤ 0xBF))
            && (0x80 ≤ b4 && b4 ≤ 0xBF) then
          let cp := (b - 0xF0) * 262144 + (b2 - 0x80) * 4096 + (b3 - 0x80) * 64
            + (b4 - 0x80)
          if cp < 0x10000 || 0x10FFFF < cp then none
          else (utf8Decode r).map (cp :: ·)
        else none
      | _ => none
    else none

/-- Embedding of the values produced by `json.loads`.  Numbers keep their
exact decimal value: `float m e` denotes m times ten to the e, without the
IEEE-754 rounding of Python floats, which no claim exercises.  Strings are
code-point lists, since JSON escapes may denote lone surrogates that a Lean
`Char` cannot carry. -/
inductive Json where
  | null
  | bool (b : Bool)
  | int (n : Int)
  | float (m : Int) (e : Int)
  | nan
  | inf
  | negInf
  | str (codes : List Nat)
  | arr (items : List Json)
  | obj (entries : List (List Nat × Json))

/-- JSON insignificant whitespace. -/
def skipJsonWs (cs : List Nat) : List Nat :=
  cs.dropWhile (fun c => c = 32 || c = 9 || c = 10 || c = 13)

/-- Consumes an expected literal code sequence. -/
def dropLit : List Nat → List Nat → Option (List Nat)
  | [], cs => some cs
  | l :: ls, c :: cs => if l = c then dropLit ls cs else none
  | _ :: _, [] => none

/-- Hexadecimal digit value of a code point. -/
def hexVal (c : Nat) : Option Nat :=
  if 48 ≤ c && c ≤ 57 then some (c - 48)
  else if 65 ≤ c && c ≤ 70 then some (c - 55)
  else if 97 ≤ c && c ≤ 102 then some (c - 87)
  else none

/-- Modelled from the Python standard library: the JSON string scanner, given
the code points after the opening quote.  Unescaped control characters are
rejected (strict mode) and the eight simple escapes and `\\uXXXX` are
decoded; surrogate combining happens in `combineSurrogates`. -/
def jstrTokens : List Nat → Option (List Nat × List Nat)
  | [] => none
  | 34 :: rest => some ([], rest)
  | 92 :: esc :: rest =>
    match esc with
    | 117 =>
      match rest with
      | a :: b :: c :: d :: r =>
        match hexVal a, hexVal b, hexVal c, hexVal d with
        | some ha, some hb, some hc, some hd =>
          (jstrTokens r).map (fun p => ((((ha * 16 + hb) * 16 + hc) * 16 + hd) :: p.1, p.2))
        | _, _, _, _ => none
      | _ => none
    | 34 => (jstrTokens rest).map (fun p => (34 :: p.1, p.2))
    | 92 => (jstrTokens rest).map (fun p => (92 :: p.1, p.2))
    | 47 => (jstrTokens rest).map (fun p => (47 :: p.1, p.2))
    | 98 => (jstrTokens rest).map (fun p => (8 :: p.1, p.2))
    | 102 => (jstrTokens rest).map (fun p => (12 :: p.1, p.2))
    | 110 => (jstrTokens rest).map (fun p => (10 :: p.1, p.2))
    | 114 => (jstrTokens rest).map (fun p => (13 :: p.1, p.2))
    | 116 => (jstrTokens rest).map (fun p => (9 :: p.1, p.2))
    | _ => none
  | c :: rest =>
    if c < 32 then none
    else (jstrTokens rest).map (fun p => (c :: p.1, p.2))

/-- Combines an adjacent high-surrogate/low-surrogate pair into one code
point, as the Python JSON decoder does for adjacent `\\uXXXX` escapes.  Only
escapes can contribute surrogate values here, since strict UTF-8 decoding of
the document rejects raw surrogates. -/
def combineSurrogates : List Nat → List Nat
  | [] => []
  | [c] => [c]
  | c1 :: c2 :: rest =>
    if (0xD800 ≤ c1 && c1 ≤ 0xDBFF) && (0xDC00 ≤ c2 && c2 ≤ 0xDFFF) then
      (0x10000 + (c1 - 0xD800) * 1024 + (c2 - 0xDC00)) :: combineSurrogates rest
    else c1 :: combineSurrogates (c2 :: rest)

/-- JSON string scanning: escape decoding followed by surrogate combining. -/
def parseJString (cs : List Nat) : Option (List Nat × List Nat) :=
  (jstrTokens cs).map (fun p => (combineSurrogates p.1, p.2))

/-- Python dict insertion, as `json.loads` builds objects: an existing key
keeps its position and receives the new value (last duplicate wins), a new
key is appended. -/
def dictInsert (m : List (List Nat × Json)) (k : List Nat) (v : Json) :
    List (List Nat × Json) :=
  if m.any (fun p => p.1 = k) then
    m.map (fun p => if p.1 = k then (k, v) else p)
  else m ++ [(k, v)]

/-- Optional exponent part of a JSON number; `none` in the first component
means no exponent was present. -/
def parseJExpPart (cs : List Nat) : Option (Option Int × List Nat) :=
  match cs with
  | 101 :: r | 69 :: r =>
    let p : Int × List Nat :=
      match r with
      | 43 :: rr => (1, rr)
      | 45 :: rr => (-1, rr)
      | _ => (1, r)
    let (eds, r2) := takeDigits p.2
    if eds = [] then none
    else some (some (p.1 * (digitsToNat eds : Int)), r2)
  | _ => some (none, cs)

/-- Builds the numeric value: an integer when there is neither fraction nor
exponent, otherwise the exact decimal float. -/
def mkJNumber (neg : Bool) (ids fds : List Nat) (exp : Option Int) : Json :=
  let sign : Int := if neg then -1 else 1
  match fds, exp with
  | [], none => .int (sign * (digitsToNat ids : Int))
  | _, _ =>
    .float (sign * (digitsToNat (ids ++ fds) : Int))
      ((exp.getD 0) - (fds.length : Int))

/-- JSON number grammar: optional minus, integer part without superfluous
leading zero, optional fraction, optional exponent. -/
def parseJNumber (cs : List Nat) : Option (Json × List Nat) :=
  let p : Bool × List Nat :=
    match cs with
    | 45 :: r => (true, r)
    | _ => (false, cs)
  let (ids, r1) := takeDigits p.2
  match ids with
  | [] => none
  | i0 :: irest =>
    if i0 = 48 && irest ≠ [] then none
    else
      match r1 with
      | 46 :: rf =>
        let (fds, r2) := takeDigits rf
        if fds = [] then none
        else
          match parseJExpPart r2 with
          | some (e, r3) => some (mkJNumber p.1 ids fds e, r3)
          | none => none
      | _ =>
        match parseJExpPart r1 with
        | some (e, r3) => some (mkJNumber p.1 ids [] e, r3)
        | none => none

/-- Parsing mode of the JSON scanner: a value, the tail of an array whose
earlier elements are in the (reversed) accumulator, or likewise the tail of
an object. -/
inductive JMode where
  | val
  | arrTail (acc : List Json)
  | objTail (acc : List (List Nat × Json))

/-- Modelled from the Python standard library: the recursive-descent core of
`json.loads`, including the non-standard `NaN`, `Infinity` and `-Infinity`
constants it accepts.  The fuel argument bounds recursion depth (Python
bounds it by the interpreter recursion limit); `jsonLoads` supplies fuel
ample for any input of its length. -/
def parseJ : Nat → JMode → List Nat → Option (Json × List Nat)
  | 0, _, _ => none
  | fuel + 1, .val, cs =>
    match skipJsonWs cs with
    | [] => none
    | 110 :: r => (dropLit (mkBytes "ull") r).map (fun rr => (Json.null, rr))
    | 116 :: r => (dropLit (mkBytes "rue") r).map (fun rr => (Json.bool true, rr))
    | 102 :: r => (dropLit (mkBytes "alse") r).map (fun rr => (Json.bool false, rr))
    | 78 :: r => (dropLit (mkBytes "aN") r).map (fun rr => (Json.nan, rr))
    | 73 :: r => (dropLit (mkBytes "nfinity") r).map (fun rr => (Json.inf, rr))
    | 34 :: r => (parseJString r).map (fun p => (Json.str p.1, p.2))
    | 91 :: r =>
      match skipJsonWs r with
      | 93 :: rr => some (Json.arr [], rr)
      | _ => parseJ fuel (.arrTail []) r
    | 123 :: r =>
      match skipJsonWs r with
      | 125 :: rr => some (Json.obj [], rr)
      | _ => parseJ fuel (.objTail []) r
    | 45 :: r =>
      match r with
      | 73 :: rr => (dropLit (mkBytes "nfinity") rr).map (fun r2 => (Json.negInf, r2))
      | _ => parseJNumber (45 :: r)
    | c :: r =>
      if isDigitCode c then parseJNumber (c :: r) else none
  | fuel + 1, .arrTail acc, cs =>
    match parseJ fuel .val cs with
    | none => none
    | some (v, r) =>
      match skipJsonWs r with
      | 44 :: rr => parseJ fuel (.arrTail (v :: acc)) rr
      | 93 :: rr => some (Json.arr (v :: acc).reverse, rr)
      | _ => none
  | fuel + 1, .objTail acc, cs =>
    match skipJsonWs cs with
    | 34 :: r =>
      match parseJString r with
      | none => none
      | some (k, r1) =>
        match skipJsonWs r1 with
        | 58 :: r2 =>
          match parseJ fuel .val r2 with
          | none => none
          | some (v, r3) =>
            match skipJsonWs r3 with
            | 44 :: r4 => parseJ fuel (.objTail ((k, v) :: acc)) r4
            | 125 :: r4 =>
              some (Json.obj (((k, v) :: acc).reverse.foldl
                (fun m q => dictInsert m q.1 q.2) []), r4)
            | _ => none
        | _ => none
    | _ => none

/-- Embedding of `json.loads` on a bytes payload: UTF-8 decode, then parse
exactly one JSON value surrounded by optional whitespace. -/
def jsonLoads (bs : List Nat) : Option Json :=
  match utf8Decode bs with
  | none => none
  | some cps =>
    match parseJ (2 * cps.length + 4) .val cps with
    | some (v, rest) => if skipJsonWs rest = [] then some v else none
    | none => none

/-- Exception kinds the client can raise.  `valueErrorMsg` is a `ValueError`
raised by the validator with an explicit message (spec name:
`InvalidArgument`); `malformedTimestamp` covers the `UnicodeDecodeError` or
`ValueError` of `line[0:26].decode("utf-8")` / `strptime`, and
`malformedJson` the `json.JSONDecodeError` of `json.loads` (spec name for
both: `MalformedRecord`); `nameError` is the `NameError` raised while
evaluating an f-string that references the undefined name `sEXCHANGES`;
`keyError` is a failing dict lookup. -/
inductive PyError where
  | nameError
  | keyError
  | valueErrorMsg (msg : String)
  | malformedTimestamp
  | malformedJson
deriving DecidableEq

/-- Source constant `DATE_MESSAGE_SPLIT_INDEX = 28`. -/
def DATE_MESSAGE_SPLIT_INDEX : Nat := 28

/-- Timestamp of a record line: bytes `[0:DATE_MESSAGE_SPLIT_INDEX - 2]`
UTF-8-decoded and parsed with `datetime.strptime(_, "%Y-%m-%dT%H:%M:%S.%f")`
(source lines 71-73); `none` when either step raises. -/
def parseLineTimestamp (line : List Nat) : Option DateTime :=
  (utf8Decode (line.take (DATE_MESSAGE_SPLIT_INDEX - 2))).bind strptimeYmdHMSf

/-- Payload of a record line: bytes `[DATE_MESSAGE_SPLIT_INDEX + 1:]` parsed
with `json.loads` (source line 74); `none` when that raises. -/
def parseLinePayload (line : List Nat) : Option Json :=
  jsonLoads (line.drop (DATE_MESSAGE_SPLIT_INDEX + 1))

/-- Emitted unit, the `Response` namedtuple: `local_timestamp` and `message`
are a parsed datetime and a decoded JSON value when `decode_response` is
true, and the two raw byte segments of the line otherwise. -/
inductive Response where
  | decoded (local_timestamp : DateTime) (message : Json)
  | raw (local_timestamp : List Nat) (message : List Nat)

/-- Per-line body of the replay loop (source lines 69-76): in decode mode the
timestamp segment is decoded and `strptime`-parsed and the payload segment is
`json.loads`-parsed, each failure raising; in raw mode the two byte slices
`line[0:28]` and `line[29:]` are yielded unvalidated. -/
def decodeLine (decode : Bool) (line : List Nat) : Except PyError Response :=
  if decode then
    match parseLineTimestamp line with
    | none => .error .malformedTimestamp
    | some ts =>
      match parseLinePayload line with
      | none => .error .malformedJson
      | some j => .ok (.decoded ts j)
  else
    .ok (.raw (line.take DATE_MESSAGE_SPLIT_INDEX)
      (line.drop (DATE_MESSAGE_SPLIT_INDEX + 1)))

/-- Helper of `splitLines`; `acc` holds the current line reversed. -/
def splitLinesAux (acc : List Nat) : List Nat → List (List Nat)
  | [] => if acc = [] then [] else [acc.reverse]
  | b :: rest =>
    if b = 10 then (acc.reverse ++ [10]) :: splitLinesAux [] rest
    else splitLinesAux (b :: acc) rest

/-- Python binary-file line iteration over decompressed slice content: lines
end just after each newline byte, which they keep; a final chunk without a
newline is yielded as-is; an empty chunk is never yielded. -/
def splitLines (content : List Nat) : List (List Nat) := splitLinesAux [] content

/-- Decoding of one slice (source lines 64-76): iterate the lines, skip those
of length zero (`if len(line) == 0: continue`), decode the rest in order; the
first raising line aborts the slice, keeping the records already yielded. -/
def decodeSlice (decode : Bool) : List (List Nat) → List Response × Option PyError
  | [] => ([], none)
  | l :: ls =>
    if l.length = 0 then decodeSlice decode ls
    else
      match decodeLine decode l with
      | .error e => ([], some e)
      | .ok r =>
        let (rs, e) := decodeSlice decode ls
        (r :: rs, e)

/-- Modelled from the spec: the filter type of `tardis_client/channel.py`
(not under src/), "Channel Filter: name plus an optional sequence of
symbols" (spec section 3).  A symbol entry is either a Python string or a
value of another type, and the symbols field either a Python list or a
non-list value, so that the validator's `isinstance` checks are expressible. -/
inductive PyVal where
  | str (s : String)
  | other
deriving DecidableEq

/-- Value of a filter's `symbols` attribute when it is not `None`. -/
inductive SymbolsVal where
  | pylist (xs : List PyVal)
  | nonlist
deriving DecidableEq

/-- Modelled from the spec: a channel filter. -/
structure Channel where
  name : String
  symbols : Option SymbolsVal
deriving DecidableEq

/-- The `filters` argument as the validator sees it: `None`, a Python list of
channels, or a value of some other type. -/
inductive FiltersArg where
  | noneF
  | listF (fs : List Channel)
  | nonlistF
deriving DecidableEq

/-- A replay request: the arguments of `replay` seen by `_validate_payload`. -/
structure Request where
  exchange : String
  from_date : String
  to_date : String
  filters : FiltersArg
deriving DecidableEq

/-- Message of the `from_date` validation error (source line 100; the
surrounding quote characters of the original f-string are omitted). -/
def fromDateMsg (s : String) : String :=
  s!"Invalid from_date argument: {s}. Please provide valid ISO date string."

/-- Message of the `to_date` validation error (source line 105). -/
def toDateMsg (s : String) : String :=
  s!"Invalid to_date argument: {s}. Please provide valid ISO date string."

/-- Message of the date-ordering validation error (source line 110). -/
def dateOrderMsg : String :=
  "Invalid from_date and to_date arguments combination. Please provide to_date date string that is later than from_date."

/-- Message of the filters-type validation error (source line 117). -/
def filtersTypeMsg : String :=
  "Invalid filters argument. Please provide valid filters Channel list"

/-- Message of the unknown-channel validation error (source line 124). -/
def channelMsg (name : String) (chans : List String) : String :=
  s!"Invalid name argument: {name}. Please provide one of the following channels: "
    ++ String.intercalate ", " chans ++ "."

/-- Message of the symbols-type validation error (source line 134; the
dynamic repr of the offending value is omitted). -/
def symbolsMsg : String :=
  "Invalid symbols[] argument. Please provide list of symbol strings."

/-- The per-filter loop of `_validate_payload` (source lines 119-135), in
state-passing form: the second component is the request after the loop,
which the source never assigns to.  Each iteration evaluates
`EXCHANGE_CHANNELS_INFO[exchange]` (a dict lookup that raises `KeyError`
when the exchange is not a key), checks the filter name against it, then
checks the optional symbols list. -/
def checkFiltersSt (EXCHANGE_CHANNELS_INFO : String → Option (List String))
    (exchange : String) (r : Request) :
    List Channel → Except PyError Unit × Request
  | [] => (.ok (), r)
  | f :: rest =>
    match EXCHANGE_CHANNELS_INFO exchange with
    | none => (.error .keyError, r)
    | some chans =>
      if f.name ∈ chans then
        match f.symbols with
        | none => checkFiltersSt EXCHANGE_CHANNELS_INFO exchange r rest
        | some .nonlist => (.error (.valueErrorMsg symbolsMsg), r)
        | some (.pylist xs) =>
          if xs.any (fun s => match s with | .str _ => false | .other => true) then
            (.error (.valueErrorMsg symbolsMsg), r)
          else checkFiltersSt EXCHANGE_CHANNELS_INFO exchange r rest
      else (.error (.valueErrorMsg (channelMsg f.name chans)), r)

/-- The filters part of validation (source lines 113-135): `None` returns,
a non-list fails, a list runs the per-filter loop. -/
def checkFiltersArgSt (EXCHANGE_CHANNELS_INFO : String → Option (List String))
    (exchange : String) (r : Request) :
    FiltersArg → Except PyError Unit × Request
  | .noneF => (.ok (), r)
  | .nonlistF => (.error (.valueErrorMsg filtersTypeMsg), r)
  | .listF fs => checkFiltersSt EXCHANGE_CHANNELS_INFO exchange r fs

/-- Embedding of `TardisClient._validate_payload` (source lines 92-135) in
state-passing form; the second component is the request after validation.
`EXCHANGES` and `EXCHANGE_CHANNELS_INFO` come from `tardis_client/consts.py`
(not under src/) and are taken as parameters.  In the unknown-exchange
branch the source raises `NameError` before any `ValueError` exists: the
f-string of the message evaluates `sEXCHANGES.join(", ")` and `sEXCHANGES`
is an undefined name.  `_try_parse_as_iso_date` and the later re-parse both
call `datetime.fromisoformat`, so they are collapsed into one parse. -/
def validatePayloadSt (EXCHANGES : List String)
    (EXCHANGE_CHANNELS_INFO : String → Option (List String)) (r : Request) :
    Except PyError Unit × Request :=
  if r.exchange ∈ EXCHANGES then
    match fromisoformat r.from_date with
    | none => (.error (.valueErrorMsg (fromDateMsg r.from_date)), r)
    | some df =>
      match fromisoformat r.to_date with
      | none => (.error (.valueErrorMsg (toDateMsg r.to_date)), r)
      | some dtt =>
        if dtt.key ≤ df.key then (.error (.valueErrorMsg dateOrderMsg), r)
        else checkFiltersArgSt EXCHANGE_CHANNELS_INFO r.exchange r r.filters
  else (.error .nameError, r)

/-- Result component of validation. -/
def validatePayload (EXCHANGES : List String)
    (EXCHANGE_CHANNELS_INFO : String → Option (List String)) (r : Request) :
    Except PyError Unit :=
  (validatePayloadSt EXCHANGES EXCHANGE_CHANNELS_INFO r).1

theorem fromisoformat_valid {s : String} {d : DateTime}
    (h : fromisoformat s = some d) : d.Valid := by
  unfold fromisoformat at h
  cases hf : isoFields (mkBytes s) with
  | none => rw [hf] at h; simp at h
  | some t =>
    rw [hf] at h
    obtain ⟨y, mo, dy, hh, mi, sec, us⟩ := t
    simp only [Option.some_bind] at h
    exact mkDateTime_valid h

/-- Outcome of one replay call: the records yielded in order, the slice-start
datetimes fetched in order, and the error that aborted the replay, if any. -/
structure ReplayResult where
  records : List Response
  fetched : List DateTime
  err : Option PyError

/-- The slice-start datetimes the loop of `replay` walks through:
`from_date`, then steps of exactly sixty seconds, while strictly before
`to_date`. -/
def sliceDates (toD : DateTime) (cur : DateTime) (hv : cur.Valid) : List DateTime :=
  if cur.key < toD.key then
    cur :: sliceDates toD (addOneMinute cur) (addOneMinute_valid hv)
  else []
termination_by toD.key - cur.key
decreasing_by have := key_lt_addOneMinute hv; omega

/-- Embedding of the replay loop (source lines 50-79) for a validated
request.  `getSlice` gives the decompressed content of the slice file the
waiter eventually observes for a given slice start; the cache path is
deterministic in the slice start for a fixed exchange, cache directory and
filter set (spec section 4.2; `get_slice_cache_path` lives in
`tardis_client/handy.py`, not under src/), so content is indexed by the
slice-start datetime.  Each iteration decodes the slice at the cursor,
yields its records, then advances the cursor by sixty seconds; a decoding
error aborts the whole replay, keeping the records already yielded. -/
def replayFrom (getSlice : DateTime → List Nat) (decode : Bool)
    (toD : DateTime) (cur : DateTime) (hv : cur.Valid) : ReplayResult :=
  if cur.key < toD.key then
    let pr := decodeSlice decode (splitLines (getSlice cur))
    match pr.2 with
    | some e => ⟨pr.1, [cur], some e⟩
    | none =>
      let rest := replayFrom getSlice decode toD (addOneMinute cur) (addOneMinute_valid hv)
      ⟨pr.1 ++ rest.records, cur :: rest.fetched, rest.err⟩
  else ⟨[], [], none⟩
termination_by toD.key - cur.key
decreasing_by have := key_lt_addOneMinute hv; omega

/-- Embedding of `TardisClient.replay` (source lines 32-90): validate, parse
the two dates, then run the slice loop from `from_date`.  A validation error
propagates before any slice is fetched or record emitted.  The final branch
is unreachable, since validation has already parsed both dates; were
`fromisoformat` to fail there, its `ValueError` would propagate, which the
branch records. -/
def replay (EXCHANGES : List String)
    (EXCHANGE_CHANNELS_INFO : String → Option (List String))
    (getSlice : DateTime → List Nat) (r : Request) (decode : Bool) : ReplayResult :=
  match validatePayload EXCHANGES EXCHANGE_CHANNELS_INFO r with
  | .error e => ⟨[], [], some e⟩
  | .ok _ =>
    match h1 : fromisoformat r.from_date, fromisoformat r.to_date with
    | some df, some dtt => replayFrom getSlice decode dtt df (fromisoformat_valid h1)
    | _, _ => ⟨[], [], some (.valueErrorMsg (fromDateMsg r.from_date))⟩

/-- C3: with an exchange outside the known set, `replay` fails before any
slice is fetched and before any record is emitted — but with `NameError`
rather than the documented `ValueError`: while formatting the error message
the f-string evaluates the undefined name `sEXCHANGES` (and a Python list
has no `join` method either), so the InvalidArgument message listing the
offending value and the valid exchanges is never built. -/
theorem unknown_exchange_raises_name_error (EXCHANGES : List String)
    (reg : String → Option (List String)) (getSlice : DateTime → List Nat)
    (r : Request) (decode : Bool) (hex : r.exchange ∉ EXCHANGES) :
    validatePayload EXCHANGES reg r = .error .nameError ∧
      replay EXCHANGES reg getSlice r decode = ⟨[], [], some .nameError⟩ := by
  have hval : validatePayload EXCHANGES reg r = .error .nameError := by
    unfold validatePayload validatePayloadSt
    rw [if_neg hex]
  refine ⟨hval, ?_⟩
  unfold replay
  rw [hval]

theorem unknown_exchange_raises_name_error_witness :
    validatePayload ["bitmex"] (fun _ => some ["trades"])
      ⟨"dummy", "2021-01-01", "2021-01-02", .noneF⟩ = .error .nameError ∧
      replay ["bitmex"] (fun _ => some ["trades"]) (fun _ => [])
        ⟨"dummy", "2021-01-01", "2021-01-02", .noneF⟩ true =
        ⟨[], [], some .nameError⟩ :=
  unknown_exchange_raises_name_error ["bitmex"] (fun _ => some ["trades"])
    (fun _ => []) ⟨"dummy", "2021-01-01", "2021-01-02", .noneF⟩ true (by decide)

/-- C4: with a known exchange and both dates parseable, validation raises the
date-ordering `ValueError` whenever `from_date` is equal to or later than
`to_date`, and whenever `from_date` is strictly earlier the date-ordering
rule passes, validation moving on to the filters checks. -/
theorem date_order_validation (EXCHANGES : List String)
    (reg : String → Option (List String)) (ex f t : String) (fl : FiltersArg)
    (df dtt : DateTime)
    (hex : ex ∈ EXCHANGES) (hf : fromisoformat f = some df)
    (ht : fromisoformat t = some dtt) :
    (dtt.key ≤ df.key →
      validatePayload EXCHANGES reg ⟨ex, f, t, fl⟩ =
        .error (.valueErrorMsg dateOrderMsg)) ∧
    (df.key < dtt.key →
      validatePayload EXCHANGES reg ⟨ex, f, t, fl⟩ =
        (checkFiltersArgSt reg ex ⟨ex, f, t, fl⟩ fl).1) := by
  unfold validatePayload validatePayloadSt
  dsimp only
  rw [if_pos hex, hf, ht]
  dsimp only
  constructor
  · intro hle
    rw [if_pos hle]
  · intro hlt
    rw [if_neg (by omega)]

theorem date_order_validation_witness :
    (validatePayload ["bitmex"] (fun _ => some ["trades"])
      ⟨"bitmex", "2021-01-01T00:00:00", "2021-01-01T00:00:00", .listF []⟩ =
      .error (.valueErrorMsg dateOrderMsg)) ∧
    (validatePayload ["bitmex"] (fun _ => some ["trades"])
      ⟨"bitmex", "2021-01-01T00:00:00", "2021-01-01T00:00:01", .listF []⟩ =
      .ok ()) := by
  constructor
  · exact (date_order_validation ["bitmex"] (fun _ => some ["trades"])
      "bitmex" "2021-01-01T00:00:00" "2021-01-01T00:00:00" (.listF [])
      ⟨2021, 1, 1, 0, 0, 0, 0⟩ ⟨2021, 1, 1, 0, 0, 0, 0⟩
      (by decide) (by decide) (by decide)).1 (by decide)
  · exact ((date_order_validation ["bitmex"] (fun _ => some ["trades"])
      "bitmex" "2021-01-01T00:00:00" "2021-01-01T00:00:01" (.listF [])
      ⟨2021, 1, 1, 0, 0, 0, 0⟩ ⟨2021, 1, 1, 0, 0, 1, 0⟩
      (by decide) (by decide) (by decide)).2 (by decide)).trans rfl

/-- C7: with `decode_response` false neither segment is parsed or validated,
so decoding can never fail: every line yields the raw byte slices, and the
error component of any slice decoded in raw mode is `none`. -/
theorem raw_mode_never_fails :
    (∀ line : List Nat, decodeLine false line =
      .ok (.raw (line.take DATE_MESSAGE_SPLIT_INDEX)
        (line.drop (DATE_MESSAGE_SPLIT_INDEX + 1)))) ∧
    (∀ lines : List (List Nat), (decodeSlice false lines).2 = none) := by
  constructor
  · intro line; rfl
  · intro lines
    induction lines with
    | nil => rfl
    | cons l ls ih =>
      unfold decodeSlice
      split
      · exact ih
      · have hdl : decodeLine false l = .ok (.raw (l.take DATE_MESSAGE_SPLIT_INDEX)
            (l.drop (DATE_MESSAGE_SPLIT_INDEX + 1))) := rfl
        rw [hdl]
        dsimp only
        rcases hds : decodeSlice false ls with ⟨rs, e⟩
        rw [hds] at ih
        exact ih

theorem checkFiltersSt_frame (reg : String → Option (List String))
    (ex : String) (r : Request) (fs : List Channel) :
    (checkFiltersSt reg ex r fs).2 = r := by
  induction fs with
  | nil => rfl
  | cons f rest ih =>
    unfold checkFiltersSt
    cases reg ex with
    | none => rfl
    | some chans =>
      dsimp only
      split
      · cases f.symbols with
        | none => exact ih
        | some sv =>
          cases sv with
          | nonlist => rfl
          | pylist xs =>
            dsimp only
            split
            · rfl
            · exact ih
      · rfl

/-- C9: validation never mutates the request: in state-passing form, the
request that comes out of `_validate_payload` — its exchange, its two date
strings, its filters value and with it every filter name and symbols list —
is the request that went in, whether the result is success or an error.  The
function body only reads: it performs membership tests, parses copies of the
date strings and inspects the filters; no statement assigns or performs
I/O. -/
theorem validate_payload_pure (EXCHANGES : List String)
    (reg : String → Option (List String)) (r : Request) :
    (validatePayloadSt EXCHANGES reg r).2 = r := by
  unfold validatePayloadSt
  split
  · cases fromisoformat r.from_date with
    | none => rfl
    | some df =>
      cases fromisoformat r.to_date with
      | none => rfl
      | some dtt =>
        dsimp only
        split
        · rfl
        · unfold checkFiltersArgSt
          cases r.filters with
          | noneF => rfl
          | nonlistF => rfl
          | listF fs => exact checkFiltersSt_frame reg r.exchange r fs
  · rfl

theorem checkFiltersSt_no_keyError (reg : String → Option (List String))
    (ex : String) (r : Request) (fs : List Channel)
    (hreg : (reg ex).isSome) :
    (checkFiltersSt reg ex r fs).1 ≠ .error .keyError := by
  induction fs with
  | nil => simp [checkFiltersSt]
  | cons f rest ih =>
    unfold checkFiltersSt
    cases hr : reg ex with
    | none => rw [hr] at hreg; simp at hreg
    | some chans =>
      dsimp only
      split
      · cases f.symbols with
        | none => exact ih
        | some sv =>
          cases sv with
          | nonlist => simp
          | pylist xs =>
            dsimp only
            split
            · simp
            · exact ih
      · simp

/-- C10: the channel lookup `EXCHANGE_CHANNELS_INFO[exchange]` is evaluated
only in the per-filter loop, which runs after the exchange has passed the
membership check against `EXCHANGES`; hence when every known exchange is a
key of the registry, validation can never raise `KeyError`, whatever the
filters list. -/
theorem channel_lookup_safe (EXCHANGES : List String)
    (reg : String → Option (List String))
    (hreg : ∀ e ∈ EXCHANGES, (reg e).isSome) (r : Request) :
    validatePayload EXCHANGES reg r ≠ .error .keyError := by
  unfold validatePayload validatePayloadSt
  split
  · rename_i hex
    cases fromisoformat r.from_date with
    | none => simp
    | some df =>
      cases fromisoformat r.to_date with
      | none => simp
      | some dtt =>
        dsimp only
        split
        · simp
        · unfold checkFiltersArgSt
          cases r.filters with
          | noneF => simp
          | nonlistF => simp
          | listF fs => exact checkFiltersSt_no_keyError reg r.exchange r fs (hreg _ hex)
  · simp

theorem channel_lookup_safe_witness :
    validatePayload ["bitmex"] (fun e => if e = "bitmex" then some ["trades"] else none)
      ⟨"bitmex", "2021-01-01", "2021-01-02", .listF [⟨"orderBookL2", none⟩]⟩ ≠
      .error .keyError :=
  channel_lookup_safe ["bitmex"]
    (fun e => if e = "bitmex" then some ["trades"] else none)
    (by decide)
    ⟨"bitmex", "2021-01-01", "2021-01-02", .listF [⟨"orderBookL2", none⟩]⟩

/-- C2 (counterexample): on the synthetic line of the spec the timestamp text
occupies only bytes 0..25, so the payload slice `line[29:]` starts inside
the JSON object; `json.loads` gets `a":1}` and raises, and the slice yields
no Response at all rather than the claimed single decoded Response. -/
theorem decode_spec_line_failure :
    decodeSlice true
      (splitLines (mkBytes "2021-01-01T00:00:00.123456 \x7b\x22a\x22:1\x7d\n")) =
      ([], some .malformedJson) := rfl

/-- C2 (amended): on a line whose timestamp prefix occupies the full 28 bytes
before the delimiter, as the slice wire format has it — here
`2021-01-01T00:00:00.1234567Z` — decode mode yields exactly one Response
whose `local_timestamp` is the datetime 2021-01-01T00:00:00.123456, parsed
from the 26-byte substring under the pattern `%Y-%m-%dT%H:%M:%S.%f`, and
whose message is the JSON object with entry a = 1. -/
theorem decode_line_roundtrip_full_prefix :
    decodeSlice true
      (splitLines (mkBytes "2021-01-01T00:00:00.1234567Z \x7b\x22a\x22:1\x7d\n")) =
      ([.decoded ⟨2021, 1, 1, 0, 0, 0, 123456⟩ (.obj [(mkBytes "a", .int 1)])],
        none) := rfl

/-- C5: the `len(line) == 0` skip is dead code, because Python binary-file
line iteration renders an empty line of the file as the one-byte line
`b"\n"`.  On content consisting of an empty line followed by one valid
record line, decode mode raises `MalformedRecord` while parsing `"\n"` as a
timestamp and emits no record, and raw mode emits two records; the claimed
single record with the empty line skipped is produced in neither mode. -/
theorem empty_line_not_skipped :
    splitLines (mkBytes "\n2021-01-01T00:00:00.1234567Z 1\n") =
      [[10], mkBytes "2021-01-01T00:00:00.1234567Z 1\n"] ∧
    decodeSlice true (splitLines (mkBytes "\n2021-01-01T00:00:00.1234567Z 1\n")) =
      ([], some .malformedTimestamp) ∧
    (decodeSlice false (splitLines (mkBytes "\n2021-01-01T00:00:00.1234567Z 1\n"))).1.length = 2 :=
  ⟨rfl, rfl, rfl⟩

/-- C6 (counterexample): for a non-empty line shorter than 29 bytes — here
the single byte `b"a"` — raw mode yields the whole line as the timestamp
segment and an empty payload segment, and re-inserting a delimiter byte
yields a two-byte string, never the original one-byte line: the
reconstruction property of the claim fails. -/
theorem raw_split_short_line_failure :
    decodeLine false [97] = .ok (.raw [97] []) ∧
    (([97] : List Nat).take DATE_MESSAGE_SPLIT_INDEX ++
      32 :: ([97] : List Nat).drop (DATE_MESSAGE_SPLIT_INDEX + 1)).length ≠
      ([97] : List Nat).length :=
  ⟨rfl, by decide⟩

/-- C6 (amended): for every line of at least 29 bytes, raw mode yields the
byte prefix `line[0:28]` and the byte suffix `line[29:]`, and the prefix,
followed by the delimiter byte `line[28]` that the split drops, followed by
the suffix, reconstructs the original line exactly; shorter lines instead
reconstruct to the line plus a spurious delimiter. -/
theorem raw_split_reconstruction (line : List Nat)
    (hlen : DATE_MESSAGE_SPLIT_INDEX + 1 ≤ line.length) :
    decodeLine false line =
      .ok (.raw (line.take DATE_MESSAGE_SPLIT_INDEX)
        (line.drop (DATE_MESSAGE_SPLIT_INDEX + 1))) ∧
    line.take DATE_MESSAGE_SPLIT_INDEX ++
      line.getD DATE_MESSAGE_SPLIT_INDEX 0 :: line.drop (DATE_MESSAGE_SPLIT_INDEX + 1) =
      line := by
  have h28 : DATE_MESSAGE_SPLIT_INDEX < line.length := by
    unfold DATE_MESSAGE_SPLIT_INDEX at hlen ⊢
    omega
  refine ⟨rfl, ?_⟩
  have hd : line.drop DATE_MESSAGE_SPLIT_INDEX =
      line.getD DATE_MESSAGE_SPLIT_INDEX 0 :: line.drop (DATE_MESSAGE_SPLIT_INDEX + 1) := by
    rw [List.getD_eq_getElem line 0 h28]
    exact List.drop_eq_getElem_cons h28
  rw [← hd, List.take_append_drop]

theorem raw_split_reconstruction_witness :
    decodeLine false (mkBytes "2021-01-01T00:00:00.1234567Z 1\n") =
      .ok (.raw ((mkBytes "2021-01-01T00:00:00.1234567Z 1\n").take DATE_MESSAGE_SPLIT_INDEX)
        ((mkBytes "2021-01-01T00:00:00.1234567Z 1\n").drop (DATE_MESSAGE_SPLIT_INDEX + 1))) ∧
    (mkBytes "2021-01-01T00:00:00.1234567Z 1\n").take DATE_MESSAGE_SPLIT_INDEX ++
      (mkBytes "2021-01-01T00:00:00.1234567Z 1\n").getD DATE_MESSAGE_SPLIT_INDEX 0 ::
      (mkBytes "2021-01-01T00:00:00.1234567Z 1\n").drop (DATE_MESSAGE_SPLIT_INDEX + 1) =
      mkBytes "2021-01-01T00:00:00.1234567Z 1\n" :=
  raw_split_reconstruction (mkBytes "2021-01-01T00:00:00.1234567Z 1\n") (by decide)

theorem decodeSlice_append_err (decode : Bool) (ls1 : List (List Nat))
    (l : List Nat) (ls2 : List (List Nat)) (e : PyError)
    (hclean : (decodeSlice decode ls1).2 = none)
    (hne : l.length ≠ 0) (hbad : decodeLine decode l = .error e) :
    decodeSlice decode (ls1 ++ l :: ls2) = ((decodeSlice decode ls1).1, some e) := by
  induction ls1 with
  | nil =>
    simp only [List.nil_append]
    unfold decodeSlice
    rw [if_neg hne, hbad]
  | cons hd tl ih =>
    simp only [List.cons_append]
    unfold decodeSlice
    split
    · rename_i hhd
      have hclean2 : (decodeSlice decode tl).2 = none := by
        unfold decodeSlice at hclean
        rw [if_pos hhd] at hclean
        exact hclean
      exact ih hclean2
    · rename_i hhd
      unfold decodeSlice at hclean
      rw [if_neg hhd] at hclean
      cases hdl : decodeLine decode hd with
      | error e0 =>
        rw [hdl] at hclean
        simp at hclean
      | ok r =>
        rw [hdl] at hclean
        dsimp only at hclean ⊢
        rcases hds : decodeSlice decode tl with ⟨rs0, e0⟩
        rw [hds] at hclean
        dsimp only at hclean
        have hclean2 : (decodeSlice decode tl).2 = none := by rw [hds]; exact hclean
        have hrec := ih hclean2
        rw [hrec, hds]

/-- C8: in decode mode, a line whose timestamp segment does not parse under
`%Y-%m-%dT%H:%M:%S.%f` or whose payload segment is not valid JSON raises
`MalformedRecord` at that line and aborts the in-progress slice and the
whole replay: the slice yields exactly the records of the lines before it,
no line after it contributes a record, and the replay fetches no further
slice, surfacing the error together with the records emitted so far. -/
theorem malformed_record_aborts_replay (ls1 : List (List Nat)) (l : List Nat)
    (ls2 : List (List Nat)) (getSlice : DateTime → List Nat)
    (toD cur : DateTime) (hv : cur.Valid)
    (hne : l.length ≠ 0)
    (hclean : (decodeSlice true ls1).2 = none)
    (hbad : parseLineTimestamp l = none ∨ parseLinePayload l = none)
    (hlt : cur.key < toD.key)
    (hsplit : splitLines (getSlice cur) = ls1 ++ l :: ls2) :
    decodeLine true l = .error (if parseLineTimestamp l = none
      then PyError.malformedTimestamp else PyError.malformedJson) ∧
    decodeSlice true (ls1 ++ l :: ls2) =
      ((decodeSlice true ls1).1, some (if parseLineTimestamp l = none
        then PyError.malformedTimestamp else PyError.malformedJson)) ∧
    replayFrom getSlice true toD cur hv =
      ⟨(decodeSlice true ls1).1, [cur], some (if parseLineTimestamp l = none
        then PyError.malformedTimestamp else PyError.malformedJson)⟩ := by
  have hdl : decodeLine true l = .error (if parseLineTimestamp l = none
      then PyError.malformedTimestamp else PyError.malformedJson) := by
    cases hts : parseLineTimestamp l with
    | none => simp [decodeLine, hts]
    | some ts =>
      have hj : parseLinePayload l = none := by
        rcases hbad with h | h
        · rw [hts] at h; simp at h
        · exact h
      simp [decodeLine, hts, hj]
  have h2 := decodeSlice_append_err true ls1 l ls2 _ hclean hne hdl
  refine ⟨hdl, h2, ?_⟩
  rw [replayFrom]
  rw [if_pos hlt]
  dsimp only
  rw [hsplit, h2]

theorem malformed_record_aborts_replay_witness :
    decodeLine true (mkBytes "garbage\n") =
      .error (if parseLineTimestamp (mkBytes "garbage\n") = none
        then PyError.malformedTimestamp else PyError.malformedJson) ∧
    decodeSlice true ([mkBytes "2021-01-01T00:00:00.1234567Z 1\n"] ++
        mkBytes "garbage\n" :: [mkBytes "2021-01-01T00:00:02.1234567Z 3\n"]) =
      ((decodeSlice true [mkBytes "2021-01-01T00:00:00.1234567Z 1\n"]).1,
        some (if parseLineTimestamp (mkBytes "garbage\n") = none
          then PyError.malformedTimestamp else PyError.malformedJson)) ∧
    replayFrom
      (fun _ => mkBytes
        "2021-01-01T00:00:00.1234567Z 1\ngarbage\n2021-01-01T00:00:02.1234567Z 3\n")
      true ⟨2021, 1, 1, 0, 2, 0, 0⟩ ⟨2021, 1, 1, 0, 0, 0, 0⟩ (by decide) =
      ⟨(decodeSlice true [mkBytes "2021-01-01T00:00:00.1234567Z 1\n"]).1,
        [⟨2021, 1, 1, 0, 0, 0, 0⟩],
        some (if parseLineTimestamp (mkBytes "garbage\n") = none
          then PyError.malformedTimestamp else PyError.malformedJson)⟩ :=
  malformed_record_aborts_replay
    [mkBytes "2021-01-01T00:00:00.1234567Z 1\n"]
    (mkBytes "garbage\n")
    [mkBytes "2021-01-01T00:00:02.1234567Z 3\n"]
    (fun _ => mkBytes
      "2021-01-01T00:00:00.1234567Z 1\ngarbage\n2021-01-01T00:00:02.1234567Z 3\n")
    ⟨2021, 1, 1, 0, 2, 0, 0⟩ ⟨2021, 1, 1, 0, 0, 0, 0⟩ (by decide)
    (by decide) rfl (Or.inl rfl) (by decide) rfl

theorem replayFrom_spec_aux (getSlice : DateTime → List Nat) (decode : Bool)
    (toD : DateTime) :
    ∀ (n : Nat) (cur : DateTime) (hv : cur.Valid), toD.key - cur.key ≤ n →
      (∀ d ∈ sliceDates toD cur hv,
        (decodeSlice decode (splitLines (getSlice d))).2 = none) →
      replayFrom getSlice decode toD cur hv =
        ⟨(sliceDates toD cur hv).flatMap
            (fun d => (decodeSlice decode (splitLines (getSlice d))).1),
          sliceDates toD cur hv, none⟩ ∧
      (∀ d ∈ sliceDates toD cur hv, d.key < toD.key) ∧
      List.Chain' (fun a b => b = addOneMinute a) (sliceDates toD cur hv) ∧
      (cur.key < toD.key → (sliceDates toD cur hv).head? = some cur) := by
  intro n
  induction n with
  | zero =>
    intro cur hv hn hclean
    have hge : ¬ cur.key < toD.key := by omega
    have hs : sliceDates toD cur hv = [] := by rw [sliceDates, if_neg hge]
    refine ⟨?_, ?_, ?_, ?_⟩
    · rw [replayFrom, if_neg hge, hs]
      rfl
    · rw [hs]; intro d hd; simp at hd
    · rw [hs]; exact List.chain'_nil
    · intro hlt; exact absurd hlt hge
  | succ n ih =>
    intro cur hv hn hclean
    by_cases hlt : cur.key < toD.key
    case neg =>
      have hs : sliceDates toD cur hv = [] := by rw [sliceDates, if_neg hlt]
      refine ⟨?_, ?_, ?_, ?_⟩
      · rw [replayFrom, if_neg hlt, hs]
        rfl
      · rw [hs]; intro d hd; simp at hd
      · rw [hs]; exact List.chain'_nil
      · intro h; exact absurd h hlt
    case pos =>
      have hs : sliceDates toD cur hv =
          cur :: sliceDates toD (addOneMinute cur) (addOneMinute_valid hv) := by
        rw [sliceDates]
        rw [if_pos hlt]
      have hnext : toD.key - (addOneMinute cur).key ≤ n := by
        have := key_lt_addOneMinute hv
        omega
      have hcleanNext : ∀ d ∈ sliceDates toD (addOneMinute cur) (addOneMinute_valid hv),
          (decodeSlice decode (splitLines (getSlice d))).2 = none := by
        intro d hd
        exact hclean d (by rw [hs]; exact List.mem_cons_of_mem _ hd)
      obtain ⟨ih1, ih2, ih3, ih4⟩ :=
        ih (addOneMinute cur) (addOneMinute_valid hv) hnext hcleanNext
      have hcur0 : (decodeSlice decode (splitLines (getSlice cur))).2 = none :=
        hclean cur (by rw [hs]; exact List.mem_cons_self _ _)
      refine ⟨?_, ?_, ?_, ?_⟩
      · rw [replayFrom, if_pos hlt]
        dsimp only
        rw [hcur0]
        dsimp only
        rw [ih1, hs, List.flatMap_cons]
      · intro d hd
        rw [hs] at hd
        rcases List.mem_cons.mp hd with rfl | hd2
        · exact hlt
        · exact ih2 d hd2
      · rw [hs]
        refine List.chain'_cons'.mpr ⟨?_, ih3⟩
        intro b hb
        cases hsd : sliceDates toD (addOneMinute cur) (addOneMinute_valid hv) with
        | nil => rw [hsd] at hb; simp at hb
        | cons hd2 tl2 =>
          rw [hsd] at hb
          simp at hb
          subst hb
          have hlt2 : (addOneMinute cur).key < toD.key := by
            by_contra hge2
            have hnil : sliceDates toD (addOneMinute cur) (addOneMinute_valid hv) = [] := by
              rw [sliceDates, if_neg hge2]
            rw [hnil] at hsd
            simp at hsd
          have hhead := ih4 hlt2
          rw [hsd] at hhead
          simp at hhead
          exact hhead
      · intro _
        rw [hs]
        rfl

/-- C1: for a request that validates, with `from_date` and `to_date` parsing
to the given datetimes, `replay` runs the slice loop with the cursor
initialized to `from_date`; the loop fetches exactly the slices whose start
datetimes begin at `from_date` and advance by exactly sixty seconds per
iteration while strictly before `to_date`, emits every record of each
fetched slice in file order before moving on, and terminates without
fetching any slice whose start is at or after `to_date`.  Stated under the
hypothesis that every fetched slice decodes without error; the end-to-end
scenario of the claim is the witness. -/
theorem replay_cursor_progression (EXCHANGES : List String)
    (reg : String → Option (List String)) (getSlice : DateTime → List Nat)
    (r : Request) (decode : Bool) (toD cur : DateTime) (hv : cur.Valid)
    (hok : validatePayload EXCHANGES reg r = .ok ())
    (hf : fromisoformat r.from_date = some cur)
    (ht : fromisoformat r.to_date = some toD)
    (hclean : ∀ d ∈ sliceDates toD cur hv,
      (decodeSlice decode (splitLines (getSlice d))).2 = none) :
    replay EXCHANGES reg getSlice r decode = replayFrom getSlice decode toD cur hv ∧
    replayFrom getSlice decode toD cur hv =
      ⟨(sliceDates toD cur hv).flatMap
          (fun d => (decodeSlice decode (splitLines (getSlice d))).1),
        sliceDates toD cur hv, none⟩ ∧
    (∀ d ∈ sliceDates toD cur hv, d.key < toD.key) ∧
    List.Chain' (fun a b => b = addOneMinute a) (sliceDates toD cur hv) ∧
    (cur.key < toD.key → (sliceDates toD cur hv).head? = some cur) := by
  have hmain := replayFrom_spec_aux getSlice decode toD (toD.key - cur.key) cur hv
    le_rfl hclean
  refine ⟨?_, hmain.1, hmain.2.1, hmain.2.2.1, hmain.2.2.2⟩
  unfold replay
  rw [hok]
  dsimp only
  split
  · rename_i df dtt h1 h2
    rw [hf] at h1
    rw [ht] at h2
    injection h1 with h1e
    injection h2 with h2e
    subst h1e
    subst h2e
    rfl
  · rename_i hno
    exact (hno cur toD hf ht).elim

/-- Slice contents of the end-to-end scenario of C1: the slice starting at
00:00 carries three records, the slice starting at 00:01 is empty, and any
other slice start maps to content that fails decoding, so that fetching a
third slice would surface in the result. -/
def scenarioSlices (d : DateTime) : List Nat :=
  if d = ⟨2021, 1, 1, 0, 0, 0, 0⟩ then
    mkBytes "2021-01-01T00:00:00.1234567Z 1\n2021-01-01T00:00:01.1234567Z 2\n2021-01-01T00:00:02.1234567Z 3\n"
  else if d = ⟨2021, 1, 1, 0, 1, 0, 0⟩ then []
  else mkBytes "junk\n"

/-- Replay request of the end-to-end scenario of C1. -/
def scenarioRequest : Request :=
  ⟨"bitmex", "2021-01-01T00:00:00", "2021-01-01T00:02:00", .listF []⟩

theorem scenarioFromValid : DateTime.Valid ⟨2021, 1, 1, 0, 0, 0, 0⟩ := by decide

theorem replay_cursor_progression_witness :
    replay ["bitmex"] (fun _ => some ["trades"]) scenarioSlices scenarioRequest true =
      ⟨[.decoded ⟨2021, 1, 1, 0, 0, 0, 123456⟩ (.int 1),
        .decoded ⟨2021, 1, 1, 0, 0, 1, 123456⟩ (.int 2),
        .decoded ⟨2021, 1, 1, 0, 0, 2, 123456⟩ (.int 3)],
        [⟨2021, 1, 1, 0, 0, 0, 0⟩, ⟨2021, 1, 1, 0, 1, 0, 0⟩], none⟩ := by
  have hsd : sliceDates ⟨2021, 1, 1, 0, 2, 0, 0⟩ ⟨2021, 1, 1, 0, 0, 0, 0⟩
      scenarioFromValid = [⟨2021, 1, 1, 0, 0, 0, 0⟩, ⟨2021, 1, 1, 0, 1, 0, 0⟩] := by
    rw [sliceDates, if_pos (by decide)]
    rw [sliceDates, if_pos (by decide)]
    rw [sliceDates, if_neg (by decide)]
    rfl
  have hclean : ∀ d ∈ sliceDates ⟨2021, 1, 1, 0, 2, 0, 0⟩ ⟨2021, 1, 1, 0, 0, 0, 0⟩
      scenarioFromValid, (decodeSlice true (splitLines (scenarioSlices d))).2 = none := by
    rw [hsd]
    intro d hd
    rcases List.mem_cons.mp hd with rfl | hd2
    · rfl
    · rcases List.mem_cons.mp hd2 with rfl | hd3
      · rfl
      · simp at hd3
  have h := replay_cursor_progression ["bitmex"] (fun _ => some ["trades"])
    scenarioSlices scenarioRequest true ⟨2021, 1, 1, 0, 2, 0, 0⟩ ⟨2021, 1, 1, 0, 0, 0, 0⟩
    scenarioFromValid rfl rfl rfl hclean
  rw [hsd] at h
  exact h.1.trans (h.2.1.trans rfl)
